import Mathlib

/-!
Verification of the fitness-tracker core (single-screen component in
app/(tabs)/index.tsx): session start/stop, Haversine distance, accelerometer
step detection with threshold and debounce, and hourly step aggregation.

The embedding models the React component state as an explicit record and each
handler as a state transformer.  JavaScript numbers are idealised as real
numbers; millisecond timestamps (Date.now()) as integers; the hour of day
(new Date().getHours()) as Fin 24.  A location fix that may fail (permission
denied or unavailable) is an Option value; the user-facing Alert calls of
stopTracking are reflected in a result tag.
-/

open Real

/-- Geographic coordinates, the part of expo-location LocationObjectCoords
that the component reads (latitude, longitude in degrees). -/
structure LocationObjectCoords where
  latitude : ℝ
  longitude : ℝ

/-- The component state: the useState variables together with the two
useRef cells (lastStepTime, prevMagnitude). -/
structure AppState where
  tracking : Bool
  startLocation : Option LocationObjectCoords
  endLocation : Option LocationObjectCoords
  distance : ℝ
  stepCount : ℕ
  hourlyStepData : Fin 24 → ℕ
  lastStepTime : ℤ
  prevMagnitude : ℝ

/-- The state at component mount: tracking false, no locations, distance 0,
stepCount 0, all hourly buckets 0, lastStepTime = Date.now() at mount
(the mountTime parameter), prevMagnitude 0. -/
def initialState (mountTime : ℤ) : AppState :=
  { tracking := false
    startLocation := none
    endLocation := none
    distance := 0
    stepCount := 0
    hourlyStepData := fun _ => 0
    lastStepTime := mountTime
    prevMagnitude := 0 }

/-- startTracking: awaits getCurrentLocation; if the fix succeeds it sets
startLocation to the fix and tracking to true (and shows an alert); on a
failed fix it returns with no state change. -/
def startTracking (s : AppState) (fix : Option LocationObjectCoords) : AppState :=
  match fix with
  | some location => { s with startLocation := some location, tracking := true }
  | none => s

/-- Degrees to radians, as in the toRad helper: value * Math.PI / 180. -/
noncomputable def toRad (value : ℝ) : ℝ := value * Real.pi / 180

/-- Math.atan2 idealised over the reals (standard quadrant-aware
arctangent).  calculateDistance only invokes it with non-negative
arguments, where it agrees with arctan of the ratio. -/
noncomputable def atan2 (y x : ℝ) : ℝ :=
  if 0 < x then Real.arctan (y / x)
  else if x < 0 ∧ 0 ≤ y then Real.arctan (y / x) + Real.pi
  else if x < 0 ∧ y < 0 then Real.arctan (y / x) - Real.pi
  else if x = 0 ∧ 0 < y then Real.pi / 2
  else if x = 0 ∧ y < 0 then -(Real.pi / 2)
  else 0

/-- calculateDistance: Haversine distance between two coordinates, exactly
as written in the source (earthRadius = 6371 km). -/
noncomputable def calculateDistance (start end_ : LocationObjectCoords) : ℝ :=
  let lat1 := toRad start.latitude
  let lon1 := toRad start.longitude
  let lat2 := toRad end_.latitude
  let lon2 := toRad end_.longitude
  let dLat := lat2 - lat1
  let dLon := lon2 - lon1
  let a := Real.sin (dLat / 2) * Real.sin (dLat / 2) +
      Real.cos lat1 * Real.cos lat2 * Real.sin (dLon / 2) * Real.sin (dLon / 2)
  let c := 2 * atan2 (Real.sqrt a) (Real.sqrt (1 - a))
  let earthRadius := 6371
  earthRadius * c

/-- The reference Haversine definition, written from the words of the spec:
h = sin^2 (dphi/2) + cos phi1 * cos phi2 * sin^2 (dlambda/2),
distance = 2 * R * atan2(sqrt h, sqrt (1 - h)) with R = 6371 km. -/
noncomputable def haversineRefKm (a b : LocationObjectCoords) : ℝ :=
  let phi1 := toRad a.latitude
  let phi2 := toRad b.latitude
  let lambda1 := toRad a.longitude
  let lambda2 := toRad b.longitude
  let dphi := phi2 - phi1
  let dlambda := lambda2 - lambda1
  let h := Real.sin (dphi / 2) ^ 2 +
      Real.cos phi1 * Real.cos phi2 * Real.sin (dlambda / 2) ^ 2
  2 * 6371 * atan2 (Real.sqrt h) (Real.sqrt (1 - h))

/-- The observable outcome of stopTracking: the fix failed (alert already
shown by getCurrentLocation), the start location was missing (Alert
"Error", "Start location not set"), or the session stopped with the
computed distance (Alert "Tracking stopped ..."). -/
inductive StopResult where
  | noFix : StopResult
  | missingStart : StopResult
  | stopped : ℝ → StopResult

/-- stopTracking: awaits getCurrentLocation; on a successful fix it first
sets endLocation, then checks startLocation: if present it computes the
distance, sets tracking to false and distance, and reports the distance and
step count; if absent it reports the missing start location.  On a failed
fix nothing changes. -/
noncomputable def stopTracking (s : AppState) (fix : Option LocationObjectCoords) :
    AppState × StopResult :=
  match fix with
  | none => (s, StopResult.noFix)
  | some location =>
    let s1 := { s with endLocation := some location }
    match s.startLocation with
    | some startLoc =>
      let calculatedDistance := calculateDistance startLoc location
      ({ s1 with tracking := false, distance := calculatedDistance },
        StopResult.stopped calculatedDistance)
    | none => (s1, StopResult.missingStart)

/-- One accelerometer callback: the sample components x, y, z together with
the wall-clock reads made while processing it (Date.now() in detectStep and
the hour of day read in updateHourlyStepData). -/
structure AccelSample where
  x : ℝ
  y : ℝ
  z : ℝ
  timeNow : ℤ
  currentHour : Fin 24

/-- The magnitude computed by detectStep: sqrt (x*x + y*y + z*z). -/
noncomputable def magnitudeOf (a : AccelSample) : ℝ :=
  Real.sqrt (a.x * a.x + a.y * a.y + a.z * a.z)

/-- updateHourlyStepData: increments the bucket of the current hour by 1,
leaving the other 23 buckets unchanged. -/
def updateHourlyStepData (d : Fin 24 → ℕ) (currentHour : Fin 24) : Fin 24 → ℕ :=
  Function.update d currentHour (d currentHour + 1)

/-- detectStep: computes the magnitude, and if it crosses the threshold 1.2
upward (previous magnitude at most the threshold) and more than
stepInterval = 500 ms have passed since the last step, increments the step
count, updates the hourly data and records the time; in every case the
previous magnitude is then set to the current magnitude. -/
noncomputable def detectStep (s : AppState) (a : AccelSample) : AppState :=
  let magnitude := magnitudeOf a
  let timeNow := a.timeNow
  let threshold : ℝ := 1.2
  let stepInterval : ℤ := 500
  let s1 :=
    if magnitude > threshold ∧ s.prevMagnitude ≤ threshold then
      if timeNow - s.lastStepTime > stepInterval then
        { s with stepCount := s.stepCount + 1
                 hourlyStepData := updateHourlyStepData s.hourlyStepData a.currentHour
                 lastStepTime := timeNow }
      else s
    else s
  { s1 with prevMagnitude := magnitude }

/-- Processing a stream of accelerometer callbacks in arrival order. -/
noncomputable def processSamples (s : AppState) (samples : List AccelSample) : AppState :=
  samples.foldl detectStep s

/-!  Helper lemmas characterising detectStep branch by branch. -/

/-- A sample at or below the threshold only updates the previous magnitude. -/
lemma detectStep_not_above (s : AppState) (a : AccelSample)
    (h : magnitudeOf a ≤ 1.2) :
    detectStep s a = { s with prevMagnitude := magnitudeOf a } := by
  unfold detectStep
  simp only [not_lt.2 h, gt_iff_lt, false_and, if_false]

/-- With the stored previous magnitude above the threshold there is no
rising edge, so only the previous magnitude is updated. -/
lemma detectStep_not_crossing (s : AppState) (a : AccelSample)
    (h : 1.2 < s.prevMagnitude) :
    detectStep s a = { s with prevMagnitude := magnitudeOf a } := by
  unfold detectStep
  simp only [not_le.2 h, gt_iff_lt, and_false, if_false]

/-- A rising edge inside the debounce window changes nothing but the
previous magnitude. -/
lemma detectStep_debounced (s : AppState) (a : AccelSample)
    (h1 : 1.2 < magnitudeOf a) (h2 : s.prevMagnitude ≤ 1.2)
    (h3 : ¬ 500 < a.timeNow - s.lastStepTime) :
    detectStep s a = { s with prevMagnitude := magnitudeOf a } := by
  unfold detectStep
  simp only [gt_iff_lt, h1, h2, and_self, if_true, h3, if_false]

/-- A rising edge outside the debounce window registers a step. -/
lemma detectStep_registers (s : AppState) (a : AccelSample)
    (h1 : 1.2 < magnitudeOf a) (h2 : s.prevMagnitude ≤ 1.2)
    (h3 : 500 < a.timeNow - s.lastStepTime) :
    detectStep s a =
      { s with stepCount := s.stepCount + 1
               hourlyStepData := updateHourlyStepData s.hourlyStepData a.currentHour
               lastStepTime := a.timeNow
               prevMagnitude := magnitudeOf a } := by
  unfold detectStep
  simp only [gt_iff_lt, h1, h2, and_self, if_true, h3]

/-- The magnitude of the axis-aligned sample (2, 0, 0) is 2. -/
lemma mag_two (t : ℤ) (hr : Fin 24) : magnitudeOf ⟨2, 0, 0, t, hr⟩ = 2 := by
  unfold magnitudeOf
  rw [show (2 : ℝ) * 2 + 0 * 0 + 0 * 0 = 2 ^ 2 by norm_num,
    Real.sqrt_sq (by norm_num)]

/-- The magnitude of the zero sample is 0. -/
lemma mag_zero (t : ℤ) (hr : Fin 24) : magnitudeOf ⟨0, 0, 0, t, hr⟩ = 0 := by
  unfold magnitudeOf
  rw [show (0 : ℝ) * 0 + 0 * 0 + 0 * 0 = 0 by norm_num, Real.sqrt_zero]

/-- detectStep always stores the current magnitude as the new baseline. -/
lemma detectStep_prevMagnitude (s : AppState) (a : AccelSample) :
    (detectStep s a).prevMagnitude = magnitudeOf a := rfl

/-- The step count after detectStep, as a single conditional. -/
lemma detectStep_stepCount (s : AppState) (a : AccelSample) :
    (detectStep s a).stepCount =
      if 1.2 < magnitudeOf a ∧ s.prevMagnitude ≤ 1.2 ∧
          500 < a.timeNow - s.lastStepTime
      then s.stepCount + 1 else s.stepCount := by
  by_cases h1 : 1.2 < magnitudeOf a
  · by_cases h2 : s.prevMagnitude ≤ 1.2
    · by_cases h3 : 500 < a.timeNow - s.lastStepTime
      · rw [detectStep_registers s a h1 h2 h3, if_pos ⟨h1, h2, h3⟩]
      · rw [detectStep_debounced s a h1 h2 h3, if_neg (fun h => h3 h.2.2)]
    · rw [detectStep_not_crossing s a (not_le.mp h2), if_neg (fun h => h2 h.2.1)]
  · rw [detectStep_not_above s a (not_lt.mp h1), if_neg (fun h => h1 h.1)]

/-- The last-step timestamp after detectStep, as a single conditional. -/
lemma detectStep_lastStepTime (s : AppState) (a : AccelSample) :
    (detectStep s a).lastStepTime =
      if 1.2 < magnitudeOf a ∧ s.prevMagnitude ≤ 1.2 ∧
          500 < a.timeNow - s.lastStepTime
      then a.timeNow else s.lastStepTime := by
  by_cases h1 : 1.2 < magnitudeOf a
  · by_cases h2 : s.prevMagnitude ≤ 1.2
    · by_cases h3 : 500 < a.timeNow - s.lastStepTime
      · rw [detectStep_registers s a h1 h2 h3, if_pos ⟨h1, h2, h3⟩]
      · rw [detectStep_debounced s a h1 h2 h3, if_neg (fun h => h3 h.2.2)]
    · rw [detectStep_not_crossing s a (not_le.mp h2), if_neg (fun h => h2 h.2.1)]
  · rw [detectStep_not_above s a (not_lt.mp h1), if_neg (fun h => h1 h.1)]

/-- Claim C1 (as stated, refuted): starting with stepCount 5 and a
successful fix, the step count after startTracking is still 5, not 0. -/
theorem startTracking_no_reset_counterexample :
    (startTracking { initialState 0 with stepCount := 5 }
        (some ⟨1, 2⟩)).stepCount = 5 ∧ (5 : ℕ) ≠ 0 :=
  ⟨rfl, by decide⟩

/-- Claim C1 (amended): on a successful fix, startTracking records the fix
as startLocation and sets tracking to true, and leaves the step count
unchanged (it is not reset to 0). -/
theorem startTracking_success (s : AppState) (location : LocationObjectCoords) :
    (startTracking s (some location)).startLocation = some location ∧
    (startTracking s (some location)).tracking = true ∧
    (startTracking s (some location)).stepCount = s.stepCount :=
  ⟨rfl, rfl, rfl⟩

/-- Claim C2: for every sample, a step is registered (the step count
increments by 1) iff the magnitude exceeds 1.2, the stored previous
magnitude is at most 1.2, and more than 500 ms have passed since the last
registered step; on registration the last-step timestamp becomes the sample
time, otherwise step count and timestamp are unchanged; and in every case
the stored previous magnitude becomes the current magnitude. -/
theorem detectStep_spec (s : AppState) (a : AccelSample) :
    ((detectStep s a).stepCount = s.stepCount + 1 ↔
      1.2 < magnitudeOf a ∧ s.prevMagnitude ≤ 1.2 ∧
        500 < a.timeNow - s.lastStepTime) ∧
    ((detectStep s a).stepCount = s.stepCount + 1 →
      (detectStep s a).lastStepTime = a.timeNow) ∧
    (¬ (1.2 < magnitudeOf a ∧ s.prevMagnitude ≤ 1.2 ∧
        500 < a.timeNow - s.lastStepTime) →
      (detectStep s a).stepCount = s.stepCount ∧
      (detectStep s a).lastStepTime = s.lastStepTime) ∧
    (detectStep s a).prevMagnitude = magnitudeOf a := by
  by_cases h1 : 1.2 < magnitudeOf a
  · by_cases h2 : s.prevMagnitude ≤ 1.2
    · by_cases h3 : 500 < a.timeNow - s.lastStepTime
      · rw [detectStep_registers s a h1 h2 h3]
        refine ⟨iff_of_true rfl ⟨h1, h2, h3⟩, fun _ => rfl, ?_, rfl⟩
        intro h
        exact absurd ⟨h1, h2, h3⟩ h
      · rw [detectStep_debounced s a h1 h2 h3]
        refine ⟨iff_of_false (by simp) (fun h => h3 h.2.2), ?_, ?_, rfl⟩
        · intro h
          exact absurd h (by simp)
        · intro _
          exact ⟨rfl, rfl⟩
    · rw [detectStep_not_crossing s a (not_le.mp h2)]
      refine ⟨iff_of_false (by simp) (fun h => h2 h.2.1), ?_, ?_, rfl⟩
      · intro h
        exact absurd h (by simp)
      · intro _
        exact ⟨rfl, rfl⟩
  · rw [detectStep_not_above s a (not_lt.mp h1)]
    refine ⟨iff_of_false (by simp) (fun h => h1 h.1), ?_, ?_, rfl⟩
    · intro h
      exact absurd h (by simp)
    · intro _
      exact ⟨rfl, rfl⟩

/-- Witness for C2 at a concrete sample. -/
theorem detectStep_spec_witness :
    (detectStep (initialState 0) ⟨2, 0, 0, 600, 0⟩).prevMagnitude =
      magnitudeOf ⟨2, 0, 0, 600, 0⟩ :=
  (detectStep_spec (initialState 0) ⟨2, 0, 0, 600, 0⟩).2.2.2

/-- Claim C5: with the initial detector state (previous magnitude 0,
last-step time = the mount time), any first sample whose magnitude exceeds
the threshold and whose time is more than 500 ms after mount registers a
step: the step count becomes 1. -/
theorem firstSample_registers (t0 : ℤ) (a : AccelSample)
    (h1 : 1.2 < magnitudeOf a) (h2 : 500 < a.timeNow - t0) :
    (detectStep (initialState t0) a).stepCount = 1 := by
  rw [detectStep_registers (initialState t0) a h1 (by norm_num [initialState]) h2]
  rfl

/-- Witness for C5: the very first sample (2, 0, 0) arriving 600 ms after
mount is counted as a step. -/
theorem firstSample_registers_witness :
    (detectStep (initialState 0) ⟨2, 0, 0, 600, 1⟩).stepCount = 1 :=
  firstSample_registers 0 ⟨2, 0, 0, 600, 1⟩
    (by rw [mag_two]; norm_num) (by decide)

/-- Claim C3 (as stated, refuted): from the mount state (last-step time =
mount time 0), the sequence below contains two upward threshold crossings
(magnitude 2 at t = 100 ms from baseline 0, and magnitude 2 at t = 400 ms
after dipping to 0) that are 300 ms < 500 ms apart, yet zero steps are
registered, not exactly one: the debounce relative to the initial
last-step time also blocks the first crossing. -/
theorem twoCrossings_counterexample :
    magnitudeOf ⟨2, 0, 0, 100, 0⟩ = 2 ∧
    magnitudeOf ⟨0, 0, 0, 250, 0⟩ = 0 ∧
    magnitudeOf ⟨2, 0, 0, 400, 0⟩ = 2 ∧
    (400 : ℤ) - 100 < 500 ∧
    (processSamples (initialState 0)
        [⟨2, 0, 0, 100, 0⟩, ⟨0, 0, 0, 250, 0⟩, ⟨2, 0, 0, 400, 0⟩]).stepCount = 0 ∧
    (0 : ℕ) ≠ 1 := by
  have e1 : detectStep (initialState 0) ⟨2, 0, 0, 100, 0⟩ =
      { initialState 0 with prevMagnitude := 2 } := by
    rw [detectStep_debounced _ _ (by rw [mag_two]; norm_num)
      (by norm_num [initialState]) (by decide), mag_two]
  have e2 : detectStep { initialState 0 with prevMagnitude := 2 }
      ⟨0, 0, 0, 250, 0⟩ = { initialState 0 with prevMagnitude := 0 } := by
    rw [detectStep_not_above _ _ (by rw [mag_zero]; norm_num), mag_zero]
  have e3 : detectStep { initialState 0 with prevMagnitude := 0 }
      ⟨2, 0, 0, 400, 0⟩ = { initialState 0 with prevMagnitude := 2 } := by
    rw [detectStep_debounced _ _ (by rw [mag_two]; norm_num)
      (by norm_num) (by decide), mag_two]
  refine ⟨mag_two 100 0, mag_zero 250 0, mag_two 400 0, by decide, ?_, by decide⟩
  show (detectStep (detectStep (detectStep (initialState 0)
      ⟨2, 0, 0, 100, 0⟩) ⟨0, 0, 0, 250, 0⟩) ⟨2, 0, 0, 400, 0⟩).stepCount = 0
  rw [e1, e2, e3]
  rfl

/-- Claim C3 (amended): processing a sequence of two upward threshold
crossings less than 500 ms apart (an above-threshold sample, a dip to at
most the threshold, and a second above-threshold sample, in time order)
registers at most one step; it registers exactly one step when the first
crossing itself passes the debounce check against the prior last-step
time. -/
theorem twoCrossings_at_most_one_step (s : AppState) (a1 a2 a3 : AccelSample)
    (hprev : s.prevMagnitude ≤ 1.2)
    (hm1 : 1.2 < magnitudeOf a1) (hm2 : magnitudeOf a2 ≤ 1.2)
    (hm3 : 1.2 < magnitudeOf a3)
    (ht12 : a1.timeNow ≤ a2.timeNow) (ht23 : a2.timeNow ≤ a3.timeNow)
    (hclose : a3.timeNow - a1.timeNow < 500) :
    (processSamples s [a1, a2, a3]).stepCount ≤ s.stepCount + 1 ∧
    (500 < a1.timeNow - s.lastStepTime →
      (processSamples s [a1, a2, a3]).stepCount = s.stepCount + 1) := by
  have hn2 : ¬ 1.2 < magnitudeOf a2 := not_lt.mpr hm2
  by_cases hd : 500 < a1.timeNow - s.lastStepTime
  · have hno3 : ¬ 500 < a3.timeNow - a1.timeNow := by omega
    simp only [processSamples, List.foldl, detectStep_stepCount,
      detectStep_prevMagnitude, detectStep_lastStepTime,
      hm1, hprev, hm2, hm3, hd, hn2, hno3, true_and, and_true,
      false_and, and_false, if_true, if_false, le_refl]
    simp [hno3]
  · refine ⟨?_, fun h => absurd h hd⟩
    simp only [processSamples, List.foldl, detectStep_stepCount,
      detectStep_prevMagnitude, detectStep_lastStepTime,
      hm1, hprev, hm2, hm3, hd, hn2, true_and, and_true,
      false_and, and_false, if_true, if_false]
    split_ifs <;> omega

/-- Witness for the amended C3 at concrete samples: with mount time 0 and
crossings at 600 ms and 900 ms (300 ms apart), exactly one step is
registered. -/
theorem twoCrossings_witness :
    (processSamples (initialState 0)
        [⟨2, 0, 0, 600, 0⟩, ⟨0, 0, 0, 700, 0⟩, ⟨2, 0, 0, 900, 0⟩]).stepCount =
      (initialState 0).stepCount + 1 :=
  (twoCrossings_at_most_one_step (initialState 0)
    ⟨2, 0, 0, 600, 0⟩ ⟨0, 0, 0, 700, 0⟩ ⟨2, 0, 0, 900, 0⟩
    (by norm_num [initialState])
    (by rw [mag_two]; norm_num) (by rw [mag_zero]; norm_num)
    (by rw [mag_two]; norm_num)
    (by decide) (by decide) (by decide)).2 (by decide)

/-- While the stored baseline stays above the threshold, samples that also
stay above the threshold never register a step: the step count is
unchanged over the whole run. -/
lemma processSamples_above_threshold (l : List AccelSample) :
    ∀ s : AppState, 1.2 < s.prevMagnitude → (∀ b ∈ l, 1.2 < magnitudeOf b) →
      (processSamples s l).stepCount = s.stepCount := by
  induction l with
  | nil => intro s _ _; rfl
  | cons a l ih =>
    intro s hs hl
    show (processSamples (detectStep s a) l).stepCount = s.stepCount
    rw [detectStep_not_crossing s a hs]
    exact ih _ (hl a (List.mem_cons_self a l))
      (fun b hb => hl b (List.mem_cons_of_mem a hb))

/-- Claim C4 (as stated, refuted): from the mount state, a run of samples
of magnitude 2 (above the threshold) at t = 100 ms and t = 200 ms is a
single rise held above the threshold, yet zero steps are registered for
the whole run, not exactly one: the debounce relative to the initial
last-step time blocks the rising edge. -/
theorem sustained_counterexample :
    magnitudeOf ⟨2, 0, 0, 100, 3⟩ = 2 ∧
    magnitudeOf ⟨2, 0, 0, 200, 3⟩ = 2 ∧
    (processSamples (initialState 0)
        [⟨2, 0, 0, 100, 3⟩, ⟨2, 0, 0, 200, 3⟩]).stepCount = 0 ∧
    (0 : ℕ) ≠ 1 := by
  have e1 : detectStep (initialState 0) ⟨2, 0, 0, 100, 3⟩ =
      { initialState 0 with prevMagnitude := 2 } := by
    rw [detectStep_debounced _ _ (by rw [mag_two]; norm_num)
      (by norm_num [initialState]) (by decide), mag_two]
  have e2 : detectStep { initialState 0 with prevMagnitude := 2 }
      ⟨2, 0, 0, 200, 3⟩ = { initialState 0 with prevMagnitude := 2 } := by
    rw [detectStep_not_crossing _ _ (by norm_num), mag_two]
  refine ⟨mag_two 100 3, mag_two 200 3, ?_, by decide⟩
  show (detectStep (detectStep (initialState 0) ⟨2, 0, 0, 100, 3⟩)
      ⟨2, 0, 0, 200, 3⟩).stepCount = 0
  rw [e1, e2]
  rfl

/-- Claim C4 (amended): for a sequence whose first sample rises above the
threshold from a baseline at most the threshold and whose remaining
samples all stay above the threshold (however long and whatever the
timestamps), at most one step is registered for the whole run — never one
per sample — and exactly one when the rising sample passes the debounce
check against the prior last-step time. -/
theorem sustained_at_most_one_step (s : AppState) (a : AccelSample)
    (l : List AccelSample)
    (hprev : s.prevMagnitude ≤ 1.2) (ha : 1.2 < magnitudeOf a)
    (hl : ∀ b ∈ l, 1.2 < magnitudeOf b) :
    (processSamples s (a :: l)).stepCount ≤ s.stepCount + 1 ∧
    (500 < a.timeNow - s.lastStepTime →
      (processSamples s (a :: l)).stepCount = s.stepCount + 1) := by
  have hstep : processSamples s (a :: l) = processSamples (detectStep s a) l := rfl
  by_cases hd : 500 < a.timeNow - s.lastStepTime
  · have h2 := processSamples_above_threshold l
      { s with stepCount := s.stepCount + 1
               hourlyStepData := updateHourlyStepData s.hourlyStepData a.currentHour
               lastStepTime := a.timeNow
               prevMagnitude := magnitudeOf a } ha hl
    rw [hstep, detectStep_registers s a ha hprev hd, h2]
    exact ⟨le_refl _, fun _ => rfl⟩
  · have h2 := processSamples_above_threshold l
      { s with prevMagnitude := magnitudeOf a } ha hl
    rw [hstep, detectStep_debounced s a ha hprev hd, h2]
    exact ⟨Nat.le_succ _, fun h => absurd h hd⟩

/-- Witness for the amended C4 at concrete samples: a rise at 600 ms after
mount held above the threshold for two further samples registers exactly
one step. -/
theorem sustained_witness :
    (processSamples (initialState 0)
        [⟨2, 0, 0, 600, 3⟩, ⟨2, 0, 0, 650, 3⟩, ⟨2, 0, 0, 2000, 3⟩]).stepCount =
      (initialState 0).stepCount + 1 :=
  (sustained_at_most_one_step (initialState 0) ⟨2, 0, 0, 600, 3⟩
    [⟨2, 0, 0, 650, 3⟩, ⟨2, 0, 0, 2000, 3⟩]
    (by norm_num [initialState]) (by rw [mag_two]; norm_num)
    (by intro b hb
        rcases List.mem_cons.mp hb with h | h
        · rw [h, mag_two]; norm_num
        · rw [List.mem_singleton.mp h, mag_two]; norm_num)).2 (by decide)

/-- Claim C6: calculateDistance agrees with the reference Haversine
definition written from the spec (same radicand, and
R * (2 * atan2 ...) = 2 * R * atan2 ...). -/
theorem calculateDistance_eq_haversineRef (a b : LocationObjectCoords) :
    calculateDistance a b = haversineRefKm a b := by
  unfold calculateDistance haversineRefKm
  dsimp only
  have key : ∀ s1 c1 c2 s2 : ℝ,
      s1 * s1 + c1 * c2 * s2 * s2 = s1 ^ 2 + c1 * c2 * s2 ^ 2 := by
    intro s1 c1 c2 s2
    ring
  rw [key]
  ring

/-- Claim C7: calculateDistance is symmetric in its two arguments. -/
theorem calculateDistance_symm (a b : LocationObjectCoords) :
    calculateDistance a b = calculateDistance b a := by
  unfold calculateDistance
  dsimp only
  have hsin : ∀ u v : ℝ, Real.sin ((u - v) / 2) * Real.sin ((u - v) / 2) =
      Real.sin ((v - u) / 2) * Real.sin ((v - u) / 2) := by
    intro u v
    rw [show (u - v) / 2 = -((v - u) / 2) by ring, Real.sin_neg]
    ring
  have hcos : ∀ c1 c2 u v : ℝ,
      c1 * c2 * Real.sin ((u - v) / 2) * Real.sin ((u - v) / 2) =
        c2 * c1 * Real.sin ((v - u) / 2) * Real.sin ((v - u) / 2) := by
    intro c1 c2 u v
    rw [show (u - v) / 2 = -((v - u) / 2) by ring, Real.sin_neg]
    ring
  rw [hsin (toRad b.latitude) (toRad a.latitude),
      hcos (Real.cos (toRad a.latitude)) (Real.cos (toRad b.latitude))
        (toRad b.longitude) (toRad a.longitude)]

/-- Claim C8: invoking stopTracking with no prior successful start
(startLocation is none) and a successful stop-time fix reports the
missing start location as a user-facing notice (the function is total, so
there is no crash) and leaves the distance value and the step count
unchanged. -/
theorem stopWithoutStart (s : AppState) (location : LocationObjectCoords)
    (h : s.startLocation = none) :
    (stopTracking s (some location)).2 = StopResult.missingStart ∧
    (stopTracking s (some location)).1.distance = s.distance ∧
    (stopTracking s (some location)).1.stepCount = s.stepCount := by
  have e : stopTracking s (some location) =
      ({ s with endLocation := some location }, StopResult.missingStart) := by
    simp only [stopTracking, h]
  rw [e]
  exact ⟨rfl, rfl, rfl⟩

/-- Witness for C8 from the mount state. -/
theorem stopWithoutStart_witness :
    (stopTracking (initialState 0) (some ⟨3, 4⟩)).2 = StopResult.missingStart ∧
    (stopTracking (initialState 0) (some ⟨3, 4⟩)).1.distance =
      (initialState 0).distance ∧
    (stopTracking (initialState 0) (some ⟨3, 4⟩)).1.stepCount =
      (initialState 0).stepCount :=
  stopWithoutStart (initialState 0) ⟨3, 4⟩ rfl

/-- Claim C10: on a successful stop-time fix, endLocation is set to the
new fix whatever startLocation holds; in particular on the
stop-without-start error path the resulting state is exactly the input
state with endLocation overwritten by the fix, so the error is not atomic
with respect to the session state. -/
theorem stopUpdatesEndLocation (s : AppState) (location : LocationObjectCoords) :
    (stopTracking s (some location)).1.endLocation = some location ∧
    (s.startLocation = none →
      (stopTracking s (some location)).2 = StopResult.missingStart ∧
      (stopTracking s (some location)).1 =
        { s with endLocation := some location }) := by
  constructor
  · cases hs : s.startLocation with
    | none => simp only [stopTracking, hs]
    | some startLoc => simp only [stopTracking, hs]
  · intro h
    have e : stopTracking s (some location) =
        ({ s with endLocation := some location }, StopResult.missingStart) := by
      simp only [stopTracking, h]
    rw [e]
    exact ⟨rfl, rfl⟩

/-- Witness for C10 from the mount state. -/
theorem stopUpdatesEndLocation_witness :
    (stopTracking (initialState 0) (some ⟨5, 6⟩)).1 =
      { initialState 0 with endLocation := some ⟨5, 6⟩ } :=
  ((stopUpdatesEndLocation (initialState 0) ⟨5, 6⟩).2 rfl).2

/-- The states the component can reach: the mount state, and anything
produced from a reachable state by the start handler, the stop handler, or
an accelerometer callback delivered while tracking is active (the listener
only calls detectStep when tracking is true). -/
inductive Reachable : AppState → Prop where
  | init : ∀ mountTime : ℤ, Reachable (initialState mountTime)
  | start : ∀ s fix, Reachable s → Reachable (startTracking s fix)
  | stop : ∀ s fix, Reachable s → Reachable (stopTracking s fix).1
  | accel : ∀ s a, Reachable s → s.tracking = true → Reachable (detectStep s a)

/-- updateHourlyStepData raises the total of the 24 buckets by exactly 1. -/
lemma sum_updateHourlyStepData (d : Fin 24 → ℕ) (hr : Fin 24) :
    (∑ i, updateHourlyStepData d hr i) = (∑ i, d i) + 1 := by
  unfold updateHourlyStepData
  rw [Finset.sum_update_of_mem (Finset.mem_univ hr)]
  have h := Finset.sum_eq_sum_diff_singleton_add (Finset.mem_univ hr) d
  omega

/-- Claim C9: in every reachable state the sum of the 24 hourly step
buckets equals the total step count: a registered step increments both by
exactly 1, and no operation resets or otherwise modifies either. -/
theorem hourlySum_eq_stepCount (s : AppState) (h : Reachable s) :
    (∑ i, s.hourlyStepData i) = s.stepCount := by
  induction h with
  | init mountTime => simp [initialState]
  | start t fix _ ih =>
    cases fix with
    | none => exact ih
    | some loc => exact ih
  | stop t fix _ ih =>
    cases fix with
    | none => exact ih
    | some loc =>
      cases hs : t.startLocation with
      | none => simp only [stopTracking, hs]; exact ih
      | some startLoc => simp only [stopTracking, hs]; exact ih
  | accel t a _ _ ih =>
    by_cases h1 : 1.2 < magnitudeOf a
    · by_cases h2 : t.prevMagnitude ≤ 1.2
      · by_cases h3 : 500 < a.timeNow - t.lastStepTime
        · rw [detectStep_registers t a h1 h2 h3]
          show (∑ i, updateHourlyStepData t.hourlyStepData a.currentHour i) =
            t.stepCount + 1
          rw [sum_updateHourlyStepData, ih]
        · rw [detectStep_debounced t a h1 h2 h3]
          exact ih
      · rw [detectStep_not_crossing t a (not_le.mp h2)]
        exact ih
    · rw [detectStep_not_above t a (not_lt.mp h1)]
      exact ih

/-- Witness for C9 at the mount state (reachable by construction). -/
theorem hourlySum_eq_stepCount_witness :
    (∑ i, (initialState 0).hourlyStepData i) = (initialState 0).stepCount :=
  hourlySum_eq_stepCount (initialState 0) (Reachable.init 0)
